import Mathlib

/-!
Ember firmware, the projector controller (`C++/Projector.cpp`).

A shallow embedding of `Projector` and of the calls it makes on its
collaborators (the I2C device, the frame buffer, the settings store, the
logger and the image library).  Every call on a collaborator is appended to a
recorded call trace; what a collaborator answers is given by a `World`, whose
answers may depend on the whole call history.
-/

namespace Ember

/-- Register addresses and command values of `Hardware.h`.  The header is not
part of the sources at hand, so the constants are taken as parameters. -/
structure Hardware where
  PROJECTOR_HW_STATUS_REG : Nat
  ERROR_STATUS : Nat
  PROJECTOR_GAMMA : Nat
  PROJECTOR_GAMMA_DISABLE : Nat
  PROJECTOR_LED_ENABLE_REG : Nat
  PROJECTOR_ENABLE_LEDS : Nat
  PROJECTOR_DISABLE_LEDS : Nat
  PROJECTOR_LED_PWM_POLARITY_REG : Nat
  PROJECTOR_PWM_POLARITY_NORMAL : Nat
  PROJECTOR_LED_CURRENT_REG : Nat
  deriving DecidableEq, Repr

/-- The registers written by the controller are pairwise different and the
enable command differs from the disable command. -/
def Hardware.Distinct (hw : Hardware) : Prop :=
  hw.PROJECTOR_GAMMA ≠ hw.PROJECTOR_LED_ENABLE_REG ∧
  hw.PROJECTOR_LED_PWM_POLARITY_REG ≠ hw.PROJECTOR_LED_ENABLE_REG ∧
  hw.PROJECTOR_LED_CURRENT_REG ≠ hw.PROJECTOR_LED_ENABLE_REG ∧
  hw.PROJECTOR_GAMMA ≠ hw.PROJECTOR_LED_PWM_POLARITY_REG ∧
  hw.PROJECTOR_GAMMA ≠ hw.PROJECTOR_LED_CURRENT_REG ∧
  hw.PROJECTOR_LED_PWM_POLARITY_REG ≠ hw.PROJECTOR_LED_CURRENT_REG ∧
  hw.PROJECTOR_ENABLE_LEDS ≠ hw.PROJECTOR_DISABLE_LEDS

instance (hw : Hardware) : Decidable hw.Distinct := by
  unfold Hardware.Distinct; infer_instance

/-- A sample instantiation of the constants (DLPC350-style values, error
sentinel `0xFF`), used to evaluate the model on concrete inputs. -/
def sampleHw : Hardware where
  PROJECTOR_HW_STATUS_REG := 0x20
  ERROR_STATUS := 0xFF
  PROJECTOR_GAMMA := 0xB1
  PROJECTOR_GAMMA_DISABLE := 0x00
  PROJECTOR_LED_ENABLE_REG := 0x90
  PROJECTOR_ENABLE_LEDS := 0x07
  PROJECTOR_DISABLE_LEDS := 0x00
  PROJECTOR_LED_PWM_POLARITY_REG := 0x8B
  PROJECTOR_PWM_POLARITY_NORMAL := 0x01
  PROJECTOR_LED_CURRENT_REG := 0xCB

/-- Syslog priority passed to `LOGGER.LogMessage`. -/
inductive LogPriority where
  | LOG_INFO
  deriving DecidableEq, Repr

/-- Message constants of `MessageStrings.h` used by the controller. -/
inductive LogText where
  | LOG_NO_PROJECTOR_I2C
  deriving DecidableEq, Repr

/-- Setting keys of `Settings.h` used by the controller. -/
inductive SettingKey where
  | PROJECTOR_LED_CURRENT
  deriving DecidableEq, Repr

/-- A `Magick::Image`: either the monochrome fill built from a geometry and
`Magick::ColorMono`, or an image decoded from a file. -/
inductive Image where
  | mono (width height : Nat) (white : Bool)
  | decoded (path : String) (content : Nat)
  deriving DecidableEq, Repr

/-- An error thrown by a collaborator.  The frame buffer and Magick++ throw
classes derived from `std::exception`; `what` is its message. -/
structure StdException where
  what : String
  deriving DecidableEq, Repr

/-- One recorded call on a collaborator.  Both overloads of
`I_I2C_Device::Write` are recorded as `i2cWrite reg data`, the one-byte
overload with a one-element `data`. -/
inductive Event where
  | i2cRead (reg : Nat)
  | i2cWrite (reg : Nat) (data : List Nat)
  | logMessage (priority : LogPriority) (text : LogText)
  | settingsGetInt (key : SettingKey)
  | fbWidth
  | fbHeight
  | fbAttach (image : Image)
  | fbDraw
  | imageRead (path : String)
  | initializeMagick
  | cerr (what : String)
  deriving DecidableEq, Repr

/-- The behaviour of the collaborators.  Each answer may depend on the calls
recorded so far.  `I_I2C_Device::Write` returns a `bool` that the controller
never consults, so it has no entry here.  The field `heightFirst` is the order
in which the two arguments of `Magick::Geometry(Width(), Height())` are
evaluated, which C++ leaves unspecified: `Height()` is called first when it
is `true`, `Width()` first when it is `false`; the choice may differ from one
evaluation to the next. -/
structure World where
  heightFirst : List Event → Bool
  i2cRead : List Event → Nat → Nat
  getInt : List Event → SettingKey → Int
  fbWidth : List Event → Except StdException Nat
  fbHeight : List Event → Except StdException Nat
  fbAttach : List Event → Image → Except StdException Unit
  fbDraw : List Event → Except StdException Unit
  imageRead : List Event → String → Except StdException Image

/-- The controller's member `_canControlViaI2C` together with the call trace
recorded so far. -/
structure Sys where
  _canControlViaI2C : Bool
  trace : List Event
  deriving DecidableEq, Repr

/-- A computation that may throw: it returns a value or an exception, and
the system state reached (the trace keeps the calls made before a throw). -/
def Exec (α : Type) : Type := Sys → Except StdException α × Sys

/-- Sequencing: an exception of the first computation skips the second. -/
def Exec.bind {α β : Type} (m : Exec α) (f : α → Exec β) : Exec β := fun s =>
  match m s with
  | (Except.ok a, s1) => f a s1
  | (Except.error e, s1) => (Except.error e, s1)

/-- Normal return. -/
def Exec.pure {α : Type} (a : α) : Exec α := fun s => (Except.ok a, s)

instance : Monad Exec where
  pure := Exec.pure
  bind := Exec.bind

/-- The block `try { body } catch (const std::exception& e) { handler }`. -/
def Exec.tryCatch {α : Type} (body : Exec α) (handler : StdException → Exec α) :
    Exec α := fun s =>
  match body s with
  | (Except.ok a, s1) => (Except.ok a, s1)
  | (Except.error e, s1) => handler e s1

/-- Record a call and hand back the collaborator's answer. -/
def call {α : Type} (e : Event) (answer : List Event → Except StdException α) :
    Exec α := fun s =>
  (answer s.trace, { s with trace := s.trace ++ [e] })

/-- Read the member `_canControlViaI2C`. -/
def canControlViaI2C : Exec Bool := fun s => (Except.ok s._canControlViaI2C, s)

/-- Assign the member `_canControlViaI2C`. -/
def setCanControlViaI2C (b : Bool) : Exec Unit := fun s =>
  (Except.ok (), { s with _canControlViaI2C := b })

section Collaborators
variable (w : World)

/-- The call `I_I2C_Device::Read(reg)`. -/
def I2C_Read (reg : Nat) : Exec Nat :=
  call (Event.i2cRead reg) (fun t => Except.ok (w.i2cRead t reg))

/-- The call `I_I2C_Device::Write(reg, data...)`; the result is not consulted. -/
def I2C_Write (reg : Nat) (data : List Nat) : Exec Unit :=
  call (Event.i2cWrite reg data) (fun _ => Except.ok ())

/-- The call `LOGGER.LogMessage(priority, text)`. -/
def LogMessage (priority : LogPriority) (text : LogText) : Exec Unit :=
  call (Event.logMessage priority text) (fun _ => Except.ok ())

/-- The call `SETTINGS.GetInt(key)`. -/
def GetInt (key : SettingKey) : Exec Int :=
  call (Event.settingsGetInt key) (fun t => Except.ok (w.getInt t key))

/-- The call `IFrameBuffer::Width()`. -/
def Width : Exec Nat := call Event.fbWidth w.fbWidth

/-- The call `IFrameBuffer::Height()`. -/
def Height : Exec Nat := call Event.fbHeight w.fbHeight

/-- The call `IFrameBuffer::Attach(image)`. -/
def Attach (image : Image) : Exec Unit :=
  call (Event.fbAttach image) (fun t => w.fbAttach t image)

/-- The call `IFrameBuffer::Draw()`. -/
def Draw : Exec Unit := call Event.fbDraw w.fbDraw

/-- The expression `Magick::Geometry(_frameBuffer.Width(), _frameBuffer.Height())`:
both arguments are evaluated, in the order the world chooses, and the result
is the pair (width, height).  When the first call throws, the second is not
made. -/
def Geometry : Exec (Nat × Nat) := fun s =>
  if w.heightFirst s.trace then
    (do
      let height ← Height w
      let width ← Width w
      pure (width, height)) s
  else
    (do
      let width ← Width w
      let height ← Height w
      pure (width, height)) s

/-- The declaration `Magick::Image image(path)`: decode the file. -/
def ImageFromPath (path : String) : Exec Image :=
  call (Event.imageRead path) (fun t => w.imageRead t path)

/-- The call `Magick::InitializeMagick("")`. -/
def InitializeMagick : Exec Unit :=
  call Event.initializeMagick (fun _ => Except.ok ())

/-- The statement `std::cerr << what << std::endl`. -/
def Cerr (what : String) : Exec Unit :=
  call (Event.cerr what) (fun _ => Except.ok ())

end Collaborators

/-- The cast `static_cast<unsigned char>(current)` of an `int`. -/
def toUnsignedChar (current : Int) : Nat := (current % 256).toNat

section Projector
variable (hw : Hardware) (w : World)

/-- The method `Projector::TurnLEDOff`. -/
def TurnLEDOff : Exec Unit := do
  let can ← canControlViaI2C
  if !can then
    pure ()
  else
    I2C_Write hw.PROJECTOR_LED_ENABLE_REG [hw.PROJECTOR_DISABLE_LEDS]

/-- The method `Projector::TurnLEDOn`. -/
def TurnLEDOn : Exec Unit := do
  let can ← canControlViaI2C
  if !can then
    pure ()
  else
    let current ← GetInt w SettingKey.PROJECTOR_LED_CURRENT
    if current > 0 then
      I2C_Write hw.PROJECTOR_LED_PWM_POLARITY_REG [hw.PROJECTOR_PWM_POLARITY_NORMAL]
      let c := toUnsignedChar current
      I2C_Write hw.PROJECTOR_LED_CURRENT_REG [c, c, c]
    I2C_Write hw.PROJECTOR_LED_ENABLE_REG [hw.PROJECTOR_ENABLE_LEDS]

/-- The method `Projector::SetImage`. -/
def SetImage (image : Image) : Exec Unit :=
  Attach w image

/-- The method `Projector::ShowCurrentImage`. -/
def ShowCurrentImage : Exec Unit := do
  Draw w
  TurnLEDOn hw w

/-- The method `Projector::ShowBlack`. -/
def ShowBlack : Exec Unit := do
  TurnLEDOff hw
  let geometry ← Geometry w
  let image := Image.mono geometry.1 geometry.2 false
  Attach w image
  Draw w

/-- The method `Projector::ShowWhite`. -/
def ShowWhite : Exec Unit := do
  let geometry ← Geometry w
  let image := Image.mono geometry.1 geometry.2 true
  Attach w image
  Draw w
  TurnLEDOn hw w

/-- The method `Projector::ShowImageFromFile`. -/
def ShowImageFromFile (path : String) : Exec Unit := do
  let image ← ImageFromPath w path
  Attach w image
  Draw w
  TurnLEDOn hw w

/-- The constructor `Projector::Projector`. -/
def Projector : Exec Unit := do
  let status ← I2C_Read w hw.PROJECTOR_HW_STATUS_REG
  setCanControlViaI2C (status != hw.ERROR_STATUS)
  let can ← canControlViaI2C
  if !can then
    LogMessage LogPriority.LOG_INFO LogText.LOG_NO_PROJECTOR_I2C
  else
    let disable := hw.PROJECTOR_GAMMA_DISABLE
    I2C_Write hw.PROJECTOR_GAMMA [disable]
  ShowBlack hw w
  InitializeMagick

/-- The destructor `Projector::~Projector`. -/
def destroyProjector : Exec Unit :=
  Exec.tryCatch (ShowBlack hw w) (fun e => Cerr e.what)

end Projector

/-! ## Operations and sequences of operations -/

/-- The public operations of the controller. -/
inductive Op where
  | TurnLEDOn
  | TurnLEDOff
  | SetImage (image : Image)
  | ShowCurrentImage
  | ShowBlack
  | ShowWhite
  | ShowImageFromFile (path : String)
  deriving DecidableEq, Repr

/-- Run one operation. -/
def Op.run (hw : Hardware) (w : World) : Op → Exec Unit
  | Op.TurnLEDOn => Ember.TurnLEDOn hw w
  | Op.TurnLEDOff => Ember.TurnLEDOff hw
  | Op.SetImage image => Ember.SetImage w image
  | Op.ShowCurrentImage => Ember.ShowCurrentImage hw w
  | Op.ShowBlack => Ember.ShowBlack hw w
  | Op.ShowWhite => Ember.ShowWhite hw w
  | Op.ShowImageFromFile path => Ember.ShowImageFromFile hw w path

/-- The operations that change the displayed image. -/
def Op.changesImage : Op → Bool
  | Op.ShowCurrentImage => true
  | Op.ShowBlack => true
  | Op.ShowWhite => true
  | Op.ShowImageFromFile _ => true
  | _ => false

/-- Run operations one after the other; an exception ends the sequence. -/
def runOps (hw : Hardware) (w : World) : List Op → Exec Unit
  | [] => pure ()
  | op :: ops => do
    op.run hw w
    runOps hw w ops

/-- Call `m` the given number of times in a row. -/
def repeatExec (m : Exec Unit) : Nat → Exec Unit
  | 0 => pure ()
  | n + 1 => do
    m
    repeatExec m n

/-! ## Observations on call traces -/

/-- The calls a computation adds to the trace when started in `s`. -/
def issued {α : Type} (m : Exec α) (s : Sys) : List Event :=
  (m s).2.trace.drop s.trace.length

/-- A call on the I2C device, read or write. -/
def Event.isI2C : Event → Bool
  | Event.i2cRead _ => true
  | Event.i2cWrite _ _ => true
  | _ => false

/-- A write on the I2C device. -/
def Event.isI2CWrite : Event → Bool
  | Event.i2cWrite _ _ => true
  | _ => false

/-- A call of `SETTINGS.GetInt`. -/
def Event.isSettingsRead : Event → Bool
  | Event.settingsGetInt _ => true
  | _ => false

/-- A call of `LOGGER.LogMessage`. -/
def Event.isLog : Event → Bool
  | Event.logMessage _ _ => true
  | _ => false

/-- A call of `IFrameBuffer::Attach`. -/
def Event.isAttach : Event → Bool
  | Event.fbAttach _ => true
  | _ => false

/-- A call of `IFrameBuffer::Draw`. -/
def Event.isDraw : Event → Bool
  | Event.fbDraw => true
  | _ => false

/-- The I2C writes of a trace, in order, as (register, bytes). -/
def busWrites : List Event → List (Nat × List Nat)
  | [] => []
  | Event.i2cWrite reg data :: es => (reg, data) :: busWrites es
  | _ :: es => busWrites es

/-- Every `p` call of the trace comes before every `q` call: from the first
`q` call on, no `p` call occurs. -/
def precedes (p q : Event → Bool) (l : List Event) : Bool :=
  (l.dropWhile (fun e => !q e)).all (fun e => !p e)

/-- The LED state after one call: a write to the LED-enable register turns
the LED on when it carries the enable command and off otherwise. -/
def ledStep (hw : Hardware) (lit : Bool) : Event → Bool
  | Event.i2cWrite reg data =>
    if reg = hw.PROJECTOR_LED_ENABLE_REG then decide (data = [hw.PROJECTOR_ENABLE_LEDS])
    else lit
  | _ => lit

/-- The LED state after a trace, starting from state `lit`. -/
def ledAfter (hw : Hardware) (lit : Bool) (l : List Event) : Bool :=
  l.foldl (ledStep hw) lit

/-- The LED is off at the moment of every `Draw` of the trace, the LED being
in state `lit` when the trace starts. -/
def darkDraws (hw : Hardware) (lit : Bool) : List Event → Bool
  | [] => true
  | Event.fbDraw :: es => !lit && darkDraws hw lit es
  | e :: es => darkDraws hw (ledStep hw lit e) es

/-- The data of the writes to register `reg`, in order. -/
def regWrites (reg : Nat) : List Event → List (List Nat)
  | [] => []
  | Event.i2cWrite r data :: es =>
    if r = reg then data :: regWrites reg es else regWrites reg es
  | _ :: es => regWrites reg es

/-- The contents of register `reg` as far as the trace determines it: the
data of the last write to it, if any. -/
def lastWrite (reg : Nat) (l : List Event) : Option (List Nat) :=
  (regWrites reg l).getLast?

/-- The two calls of a completed `Geometry`, in the order of evaluation. -/
def geometryEvents (heightFirst : Bool) : List Event :=
  if heightFirst then [Event.fbHeight, Event.fbWidth] else [Event.fbWidth, Event.fbHeight]

/-- What `Width()` answers when `Geometry` is evaluated at history `t`: it is
asked after `Height()` when `Height()` goes first. -/
def widthAnswer (w : World) (t : List Event) : Except StdException Nat :=
  if w.heightFirst t then w.fbWidth (t ++ [Event.fbHeight]) else w.fbWidth t

/-- What `Height()` answers when `Geometry` is evaluated at history `t`: it is
asked after `Width()` when `Width()` goes first. -/
def heightAnswer (w : World) (t : List Event) : Except StdException Nat :=
  if w.heightFirst t then w.fbHeight t else w.fbHeight (t ++ [Event.fbWidth])

/-- The calls `TurnLEDOff` makes, by bus availability. -/
def ledOffEvents (hw : Hardware) (can : Bool) : List Event :=
  if can then [Event.i2cWrite hw.PROJECTOR_LED_ENABLE_REG [hw.PROJECTOR_DISABLE_LEDS]]
  else []

/-- The calls `TurnLEDOn` makes, by bus availability and configured current. -/
def ledOnEvents (hw : Hardware) (can : Bool) (current : Int) : List Event :=
  if can then
    Event.settingsGetInt SettingKey.PROJECTOR_LED_CURRENT ::
      ((if current > 0 then
          [Event.i2cWrite hw.PROJECTOR_LED_PWM_POLARITY_REG [hw.PROJECTOR_PWM_POLARITY_NORMAL],
           Event.i2cWrite hw.PROJECTOR_LED_CURRENT_REG
             [toUnsignedChar current, toUnsignedChar current, toUnsignedChar current]]
        else []) ++
        [Event.i2cWrite hw.PROJECTOR_LED_ENABLE_REG [hw.PROJECTOR_ENABLE_LEDS]])
  else []

/-- A collaborator set in which every display call succeeds on a 1280 x 800
display; the status register reads `status` and the configured LED current
is `current`.  `Height()` is evaluated before `Width()`, the order g++
produces. -/
def calmWorld (status : Nat) (current : Int) : World where
  heightFirst := fun _ => true
  i2cRead := fun _ _ => status
  getInt := fun _ _ => current
  fbWidth := fun _ => Except.ok 1280
  fbHeight := fun _ => Except.ok 800
  fbAttach := fun _ _ => Except.ok ()
  fbDraw := fun _ => Except.ok ()
  imageRead := fun _ path => Except.ok (Image.decoded path 0)

/-- As `calmWorld`, but `Draw` always throws. -/
def drawFailsWorld (status : Nat) (current : Int) : World :=
  { calmWorld status current with fbDraw := fun _ => Except.error { what := "draw" } }

/-- As `calmWorld`, but decoding an image file always throws. -/
def decodeFailsWorld (status : Nat) (current : Int) : World :=
  { calmWorld status current with
    imageRead := fun _ _ => Except.error { what := "decode" } }

/-- As `calmWorld`, but `Width()` is evaluated before `Height()`. -/
def widthFirstWorld (status : Nat) (current : Int) : World :=
  { calmWorld status current with heightFirst := fun _ => false }

/-- As `calmWorld`, but `Width()` and `Height()` both throw. -/
def geometryFailsWorld (status : Nat) (current : Int) : World :=
  { calmWorld status current with
    fbWidth := fun _ => Except.error { what := "width" }
    fbHeight := fun _ => Except.error { what := "height" } }

/-- A freshly started system: nothing recorded, member not yet assigned. -/
def freshSys : Sys := { _canControlViaI2C := false, trace := [] }

/-- A system whose controller has bus control, nothing recorded. -/
def busSys : Sys := { _canControlViaI2C := true, trace := [] }

/-! ## Calculation rules for computations -/

theorem bind_call {α β : Type} (e : Event) (ans : List Event → Except StdException α)
    (f : α → Exec β) (s : Sys) :
    (call e ans >>= f) s =
      match ans s.trace with
      | Except.ok a => f a { s with trace := s.trace ++ [e] }
      | Except.error x => (Except.error x, { s with trace := s.trace ++ [e] }) := by
  show Exec.bind (call e ans) f s = _
  unfold Exec.bind call
  cases ans s.trace <;> rfl

theorem Geometry_bind {β : Type} (w : World) (f : Nat × Nat → Exec β) (s : Sys) :
    (Geometry w >>= f) s =
      if w.heightFirst s.trace then
        match w.fbHeight s.trace with
        | Except.ok H =>
          match w.fbWidth (s.trace ++ [Event.fbHeight]) with
          | Except.ok W => f (W, H) { s with trace := s.trace ++ [Event.fbHeight, Event.fbWidth] }
          | Except.error x =>
            (Except.error x, { s with trace := s.trace ++ [Event.fbHeight, Event.fbWidth] })
        | Except.error x => (Except.error x, { s with trace := s.trace ++ [Event.fbHeight] })
      else
        match w.fbWidth s.trace with
        | Except.ok W =>
          match w.fbHeight (s.trace ++ [Event.fbWidth]) with
          | Except.ok H => f (W, H) { s with trace := s.trace ++ [Event.fbWidth, Event.fbHeight] }
          | Except.error x =>
            (Except.error x, { s with trace := s.trace ++ [Event.fbWidth, Event.fbHeight] })
        | Except.error x => (Except.error x, { s with trace := s.trace ++ [Event.fbWidth] }) := by
  show Exec.bind (Geometry w) f s = _
  unfold Exec.bind Geometry
  by_cases h : w.heightFirst s.trace = true
  · simp only [h, if_true, Height, Width, bind_call]
    cases w.fbHeight s.trace with
    | error x => rfl
    | ok H =>
      simp only []
      cases w.fbWidth (s.trace ++ [Event.fbHeight]) with
      | error x => simp
      | ok W => simp [pure, Exec.pure]
  · simp only [h, if_false, Height, Width, bind_call]
    cases w.fbWidth s.trace with
    | error x => rfl
    | ok W =>
      simp only []
      cases w.fbHeight (s.trace ++ [Event.fbWidth]) with
      | error x => simp
      | ok H => simp [pure, Exec.pure]

theorem bind_of_ok {α β : Type} (m : Exec α) (f : α → Exec β) (s s1 : Sys) (a : α)
    (h : m s = (Except.ok a, s1)) : (m >>= f) s = f a s1 := by
  show Exec.bind m f s = _
  unfold Exec.bind
  rw [h]

theorem TurnLEDOff_eq (hw : Hardware) (s : Sys) :
    TurnLEDOff hw s =
      (Except.ok (), { s with trace := s.trace ++ ledOffEvents hw s._canControlViaI2C }) := by
  cases s with
  | mk can t =>
    cases can <;>
    simp [TurnLEDOff, bind, Exec.bind, pure, Exec.pure, canControlViaI2C, I2C_Write, call,
      ledOffEvents]

theorem TurnLEDOff_bind {β : Type} (hw : Hardware) (f : Unit → Exec β) (s : Sys) :
    (TurnLEDOff hw >>= f) s =
      f () { s with trace := s.trace ++ ledOffEvents hw s._canControlViaI2C } :=
  bind_of_ok _ _ _ _ _ (TurnLEDOff_eq hw s)

theorem TurnLEDOn_eq (hw : Hardware) (w : World) (s : Sys) :
    TurnLEDOn hw w s =
      (Except.ok (), { s with trace := (s.trace ++
        ledOnEvents hw s._canControlViaI2C
          (w.getInt s.trace SettingKey.PROJECTOR_LED_CURRENT)) }) := by
  cases s with
  | mk can t =>
    cases can
    · simp [TurnLEDOn, bind, Exec.bind, pure, Exec.pure, canControlViaI2C, ledOnEvents]
    · by_cases h : w.getInt t SettingKey.PROJECTOR_LED_CURRENT > 0 <;>
      simp [TurnLEDOn, bind, Exec.bind, pure, Exec.pure, canControlViaI2C, GetInt,
        I2C_Write, call, ledOnEvents, h]

theorem issued_TurnLEDOn (hw : Hardware) (w : World) (s : Sys) :
    issued (TurnLEDOn hw w) s =
      ledOnEvents hw s._canControlViaI2C
        (w.getInt s.trace SettingKey.PROJECTOR_LED_CURRENT) := by
  simp [issued, TurnLEDOn_eq]

/-! ## Degraded mode: no bus control -/

/-- C1: when `_canControlViaI2C` is false, none of the seven operations makes
a call on the I2C device (no `Read`, no `Write`), each leaves the flag false
and only appends to the call trace; `TurnLEDOn` and `TurnLEDOff` leave the
whole state as it was, so they do not even read the configured current. -/
theorem no_bus_access_without_bus_control (hw : Hardware) (w : World) (s : Sys)
    (h : s._canControlViaI2C = false) :
    (∀ op : Op,
        (issued (op.run hw w) s).filter Event.isI2C = [] ∧
        (op.run hw w s).2._canControlViaI2C = false ∧
        (op.run hw w s).2.trace = s.trace ++ issued (op.run hw w) s) ∧
      TurnLEDOn hw w s = (Except.ok (), s) ∧
      TurnLEDOff hw s = (Except.ok (), s) := by
  cases s with
  | mk can t =>
    simp only at h
    subst h
    refine ⟨?_, ?_, ?_⟩
    · intro op
      cases op <;>
        simp only [Op.run, issued, SetImage, ShowCurrentImage, ShowBlack, ShowWhite,
          ShowImageFromFile, TurnLEDOff_bind, TurnLEDOn_eq, TurnLEDOff_eq, Geometry_bind,
          Attach, Draw, ImageFromPath, bind_call, call] <;>
        (repeat' split) <;>
        simp [ledOffEvents, ledOnEvents, Event.isI2C]
    · simp [TurnLEDOn_eq, ledOnEvents]
    · simp [TurnLEDOff_eq, ledOffEvents]

/-- Witness for C1: a controller without bus control shows white on a calm display. -/
theorem no_bus_access_without_bus_control_witness :
    freshSys._canControlViaI2C = false ∧
      (issued (Op.ShowWhite.run sampleHw (calmWorld 255 150)) freshSys).filter Event.isI2C = [] :=
  ⟨rfl, ((no_bus_access_without_bus_control sampleHw (calmWorld 255 150) freshSys rfl).1
    Op.ShowWhite).1⟩

/-! ## The bus writes of `TurnLEDOn` -/

theorem busWrites_ledOnEvents (hw : Hardware) (C : Int) :
    busWrites (ledOnEvents hw true C) =
      if C > 0 then
        [(hw.PROJECTOR_LED_PWM_POLARITY_REG, [hw.PROJECTOR_PWM_POLARITY_NORMAL]),
         (hw.PROJECTOR_LED_CURRENT_REG, [toUnsignedChar C, toUnsignedChar C, toUnsignedChar C]),
         (hw.PROJECTOR_LED_ENABLE_REG, [hw.PROJECTOR_ENABLE_LEDS])]
      else [(hw.PROJECTOR_LED_ENABLE_REG, [hw.PROJECTOR_ENABLE_LEDS])] := by
  by_cases h : C > 0 <;> simp [ledOnEvents, busWrites, h]

theorem toUnsignedChar_cast (C : Int) :
    ((toUnsignedChar C : Nat) : Int) = C % 256 := by
  unfold toUnsignedChar
  have : 0 ≤ C % 256 := Int.emod_nonneg C (by decide)
  omega

/-- C2 (counterexample): with configured current 256 the three bytes written
to the LED-current register are not 256 each: the write is `{0,0,0}`. -/
theorem TurnLEDOn_bytes_differ_from_current_256 :
    busWrites (issued (TurnLEDOn sampleHw (calmWorld 0 256)) busSys) =
        [(sampleHw.PROJECTOR_LED_PWM_POLARITY_REG, [sampleHw.PROJECTOR_PWM_POLARITY_NORMAL]),
         (sampleHw.PROJECTOR_LED_CURRENT_REG, [0, 0, 0]),
         (sampleHw.PROJECTOR_LED_ENABLE_REG, [sampleHw.PROJECTOR_ENABLE_LEDS])] ∧
      busWrites (issued (TurnLEDOn sampleHw (calmWorld 0 256)) busSys) ≠
        [(sampleHw.PROJECTOR_LED_PWM_POLARITY_REG, [sampleHw.PROJECTOR_PWM_POLARITY_NORMAL]),
         (sampleHw.PROJECTOR_LED_CURRENT_REG, [256, 256, 256]),
         (sampleHw.PROJECTOR_LED_ENABLE_REG, [sampleHw.PROJECTOR_ENABLE_LEDS])] := by
  decide

/-- C2 (amended): with the bus available and configured current `C`, if
`C > 0` then `TurnLEDOn` issues exactly three bus writes, in this order: the
PWM-polarity register with the polarity-normal value, one 3-byte write to the
LED-current register whose bytes each equal `C` cast to `unsigned char` (which
is `C` itself when `C <= 255`), and the LED-enable register with the enable
command; if `C <= 0` it issues exactly one bus write, the enable command. -/
theorem TurnLEDOn_bus_writes (hw : Hardware) (w : World) (s : Sys) (C : Int)
    (hcan : s._canControlViaI2C = true)
    (hC : w.getInt s.trace SettingKey.PROJECTOR_LED_CURRENT = C) :
    (0 < C →
        busWrites (issued (TurnLEDOn hw w) s) =
          [(hw.PROJECTOR_LED_PWM_POLARITY_REG, [hw.PROJECTOR_PWM_POLARITY_NORMAL]),
           (hw.PROJECTOR_LED_CURRENT_REG,
             [toUnsignedChar C, toUnsignedChar C, toUnsignedChar C]),
           (hw.PROJECTOR_LED_ENABLE_REG, [hw.PROJECTOR_ENABLE_LEDS])]) ∧
      (0 < C → C ≤ 255 → ((toUnsignedChar C : Nat) : Int) = C) ∧
      (C ≤ 0 →
        busWrites (issued (TurnLEDOn hw w) s) =
          [(hw.PROJECTOR_LED_ENABLE_REG, [hw.PROJECTOR_ENABLE_LEDS])]) := by
  rw [issued_TurnLEDOn, hcan, hC, busWrites_ledOnEvents]
  refine ⟨fun h => by simp [h], fun h1 h2 => ?_, fun h => by simp [not_lt.mpr h]⟩
  rw [toUnsignedChar_cast C]
  omega

/-- Witness for C2: configured current 150 gives polarity = normal, then
`{150,150,150}`, then enable. -/
theorem TurnLEDOn_bus_writes_witness :
    busSys._canControlViaI2C = true ∧
      busWrites (issued (TurnLEDOn sampleHw (calmWorld 0 150)) busSys) =
        [(sampleHw.PROJECTOR_LED_PWM_POLARITY_REG, [sampleHw.PROJECTOR_PWM_POLARITY_NORMAL]),
         (sampleHw.PROJECTOR_LED_CURRENT_REG, [150, 150, 150]),
         (sampleHw.PROJECTOR_LED_ENABLE_REG, [sampleHw.PROJECTOR_ENABLE_LEDS])] :=
  ⟨rfl, (TurnLEDOn_bus_writes sampleHw (calmWorld 0 150) busSys 150 rfl rfl).1 (by decide)⟩

/-- C10: with the bus available and configured current `C > 0`, the three
bytes written to the LED-current register all equal `C mod 256`; they equal
`C` exactly when `C <= 255`; for `C = 256` the bytes are `{0,0,0}`, and the
polarity write and the enable write are issued all the same. -/
theorem TurnLEDOn_current_bytes_mod_256 (hw : Hardware) (w : World) (s : Sys) (C : Int)
    (hcan : s._canControlViaI2C = true)
    (hC : w.getInt s.trace SettingKey.PROJECTOR_LED_CURRENT = C) (hpos : 0 < C) :
    busWrites (issued (TurnLEDOn hw w) s) =
        [(hw.PROJECTOR_LED_PWM_POLARITY_REG, [hw.PROJECTOR_PWM_POLARITY_NORMAL]),
         (hw.PROJECTOR_LED_CURRENT_REG,
           [(C % 256).toNat, (C % 256).toNat, (C % 256).toNat]),
         (hw.PROJECTOR_LED_ENABLE_REG, [hw.PROJECTOR_ENABLE_LEDS])] ∧
      ((((C % 256).toNat : Nat) : Int) = C ↔ C ≤ 255) ∧
      (C = 256 →
        busWrites (issued (TurnLEDOn hw w) s) =
          [(hw.PROJECTOR_LED_PWM_POLARITY_REG, [hw.PROJECTOR_PWM_POLARITY_NORMAL]),
           (hw.PROJECTOR_LED_CURRENT_REG, [0, 0, 0]),
           (hw.PROJECTOR_LED_ENABLE_REG, [hw.PROJECTOR_ENABLE_LEDS])]) := by
  rw [issued_TurnLEDOn, hcan, hC, busWrites_ledOnEvents]
  have hc := toUnsignedChar_cast C
  refine ⟨by simp [hpos, toUnsignedChar], ?_, ?_⟩
  · unfold toUnsignedChar at hc
    rw [hc]
    omega
  · intro h
    subst h
    simp [toUnsignedChar]

/-- Witness for C10: configured current 256 writes `{0,0,0}`. -/
theorem TurnLEDOn_current_bytes_mod_256_witness :
    busSys._canControlViaI2C = true ∧ (0 : Int) < 256 ∧
      busWrites (issued (TurnLEDOn sampleHw (calmWorld 0 256)) busSys) =
        [(sampleHw.PROJECTOR_LED_PWM_POLARITY_REG, [sampleHw.PROJECTOR_PWM_POLARITY_NORMAL]),
         (sampleHw.PROJECTOR_LED_CURRENT_REG, [0, 0, 0]),
         (sampleHw.PROJECTOR_LED_ENABLE_REG, [sampleHw.PROJECTOR_ENABLE_LEDS])] :=
  ⟨rfl, by decide,
    (TurnLEDOn_current_bytes_mod_256 sampleHw (calmWorld 0 256) busSys 256 rfl rfl
      (by decide)).2.2 rfl⟩

/-! ## Construction -/

theorem ShowBlack_of_ok (hw : Hardware) (w : World) (s : Sys)
    (h : (ShowBlack hw w s).1 = Except.ok ()) :
    ∃ W H,
      widthAnswer w (s.trace ++ ledOffEvents hw s._canControlViaI2C) = Except.ok W ∧
      heightAnswer w (s.trace ++ ledOffEvents hw s._canControlViaI2C) = Except.ok H ∧
      (ShowBlack hw w s).2 =
        { s with trace := (s.trace ++ ledOffEvents hw s._canControlViaI2C ++
            geometryEvents (w.heightFirst (s.trace ++ ledOffEvents hw s._canControlViaI2C)) ++
            [Event.fbAttach (Image.mono W H false), Event.fbDraw]) } := by
  simp only [ShowBlack, TurnLEDOff_bind, Geometry_bind, Attach, Draw, bind_call, call,
    widthAnswer, heightAnswer, geometryEvents] at h ⊢
  by_cases hf : w.heightFirst (s.trace ++ ledOffEvents hw s._canControlViaI2C) = true
  · simp only [hf, if_true] at h ⊢
    split at h
    · split at h
      · split at h
        · simp_all
        · simp at h
      · simp at h
    · simp at h
  · rw [Bool.not_eq_true] at hf
    simp only [hf, Bool.false_eq_true, if_false] at h ⊢
    split at h
    · split at h
      · split at h
        · simp_all
        · simp at h
      · simp at h
    · simp at h

theorem ShowBlack_facts (hw : Hardware) (w : World) (s : Sys) :
    (ShowBlack hw w s).2._canControlViaI2C = s._canControlViaI2C ∧
      (ShowBlack hw w s).2.trace = s.trace ++ issued (ShowBlack hw w) s ∧
      (issued (ShowBlack hw w) s).filter Event.isI2C = ledOffEvents hw s._canControlViaI2C ∧
      (issued (ShowBlack hw w) s).filter Event.isI2CWrite =
        ledOffEvents hw s._canControlViaI2C ∧
      (issued (ShowBlack hw w) s).filter Event.isLog = [] := by
  cases s with
  | mk can t =>
    simp only [issued, ShowBlack, TurnLEDOff_bind, Geometry_bind, Attach, Draw, bind_call, call]
    cases can <;> (repeat' split) <;>
      simp [ledOffEvents, Event.isI2C, Event.isI2CWrite, Event.isLog]

theorem ShowWhite_of_ok (hw : Hardware) (w : World) (s : Sys)
    (h : (ShowWhite hw w s).1 = Except.ok ()) :
    ∃ W H,
      widthAnswer w s.trace = Except.ok W ∧
      heightAnswer w s.trace = Except.ok H ∧
      issued (ShowWhite hw w) s =
        geometryEvents (w.heightFirst s.trace) ++
          [Event.fbAttach (Image.mono W H true), Event.fbDraw] ++
          ledOnEvents hw s._canControlViaI2C
            (w.getInt
              (s.trace ++ geometryEvents (w.heightFirst s.trace) ++
                [Event.fbAttach (Image.mono W H true), Event.fbDraw])
              SettingKey.PROJECTOR_LED_CURRENT) := by
  simp only [issued, ShowWhite, TurnLEDOn_eq, Geometry_bind, Attach, Draw, bind_call, call,
    widthAnswer, heightAnswer, geometryEvents] at h ⊢
  by_cases hf : w.heightFirst s.trace = true
  · simp only [hf, if_true] at h ⊢
    split at h
    · split at h
      · split at h
        · split at h
          · simp_all
          · simp at h
        · simp at h
      · simp at h
    · simp at h
  · rw [Bool.not_eq_true] at hf
    simp only [hf, Bool.false_eq_true, if_false] at h ⊢
    split at h
    · split at h
      · split at h
        · split at h
          · simp_all
          · simp at h
        · simp at h
      · simp at h
    · simp at h

theorem ShowBlack_order (hw : Hardware) (w : World) (s : Sys) :
    precedes Event.isI2CWrite (fun e => e.isAttach || e.isDraw)
        (issued (ShowBlack hw w) s) = true ∧
      precedes Event.isAttach Event.isDraw (issued (ShowBlack hw w) s) = true ∧
      (s._canControlViaI2C = true →
        (issued (ShowBlack hw w) s).head? =
          some (Event.i2cWrite hw.PROJECTOR_LED_ENABLE_REG [hw.PROJECTOR_DISABLE_LEDS])) ∧
      (∀ image, Event.fbAttach image ∈ issued (ShowBlack hw w) s →
        ∃ W H,
          widthAnswer w (s.trace ++ ledOffEvents hw s._canControlViaI2C) = Except.ok W ∧
          heightAnswer w (s.trace ++ ledOffEvents hw s._canControlViaI2C) = Except.ok H ∧
          image = Image.mono W H false) := by
  cases s with
  | mk can t =>
    simp only [issued, ShowBlack, TurnLEDOff_bind, Geometry_bind, Attach, Draw, bind_call, call,
      widthAnswer, heightAnswer]
    cases can <;> (repeat' split) <;>
      simp_all [precedes, ledOffEvents, Event.isI2CWrite, Event.isAttach, Event.isDraw,
        List.dropWhile]

theorem ShowWhite_order (hw : Hardware) (w : World) (s : Sys) :
    precedes (fun e => e.isAttach || e.isDraw) (fun e => e.isI2CWrite || e.isSettingsRead)
        (issued (ShowWhite hw w) s) = true ∧
      precedes Event.isAttach Event.isDraw (issued (ShowWhite hw w) s) = true ∧
      ((∃ e ∈ issued (ShowWhite hw w) s, e.isI2CWrite = true) →
        Event.fbDraw ∈ issued (ShowWhite hw w) s) ∧
      (∀ image, Event.fbAttach image ∈ issued (ShowWhite hw w) s →
        ∃ W H,
          widthAnswer w s.trace = Except.ok W ∧
          heightAnswer w s.trace = Except.ok H ∧
          image = Image.mono W H true) := by
  cases s with
  | mk can t =>
    cases can <;>
      simp only [issued, ShowWhite, TurnLEDOn_eq, Geometry_bind, Attach, Draw, bind_call, call,
        ledOnEvents, if_true, Bool.false_eq_true, if_false, widthAnswer, heightAnswer] <;>
      (repeat' split) <;>
      simp_all [precedes, ledOnEvents, Event.isI2CWrite, Event.isAttach, Event.isDraw,
        Event.isSettingsRead, List.dropWhile]

theorem ShowBlack_issued_of_ok (hw : Hardware) (w : World) (s : Sys)
    (h : (ShowBlack hw w s).1 = Except.ok ()) :
    ∃ W H,
      widthAnswer w (s.trace ++ ledOffEvents hw s._canControlViaI2C) = Except.ok W ∧
      heightAnswer w (s.trace ++ ledOffEvents hw s._canControlViaI2C) = Except.ok H ∧
      issued (ShowBlack hw w) s =
        ledOffEvents hw s._canControlViaI2C ++
          geometryEvents (w.heightFirst (s.trace ++ ledOffEvents hw s._canControlViaI2C)) ++
          [Event.fbAttach (Image.mono W H false), Event.fbDraw] := by
  obtain ⟨W, H, hW, hH, hst⟩ := ShowBlack_of_ok hw w s h
  refine ⟨W, H, hW, hH, ?_⟩
  simp [issued, hst, List.append_assoc]

/-- C4: in the calls of `ShowBlack`, every bus write (the LED-disable write
of `TurnLEDOff`, which is the first call when the bus is available) comes
before `Attach` and before `Draw`; in the calls of `ShowWhite`, `Attach` and
`Draw` come before every call of `TurnLEDOn` (the settings read and the
polarity, current and enable writes), and a bus write is issued only if `Draw`
was called.  In both, `Attach` comes before `Draw`, the attached image is the
monochrome image of the display's `Width()` and `Height()`, and a completed
operation has exactly the calls listed, `Width()` and `Height()` being called
in either order. -/
theorem ShowBlack_ShowWhite_call_order (hw : Hardware) (w : World) (s : Sys) :
    (precedes Event.isI2CWrite (fun e => e.isAttach || e.isDraw)
        (issued (ShowBlack hw w) s) = true ∧
      precedes Event.isAttach Event.isDraw (issued (ShowBlack hw w) s) = true ∧
      (s._canControlViaI2C = true →
        (issued (ShowBlack hw w) s).head? =
          some (Event.i2cWrite hw.PROJECTOR_LED_ENABLE_REG [hw.PROJECTOR_DISABLE_LEDS])) ∧
      (∀ image, Event.fbAttach image ∈ issued (ShowBlack hw w) s →
        ∃ W H,
          widthAnswer w (s.trace ++ ledOffEvents hw s._canControlViaI2C) = Except.ok W ∧
          heightAnswer w (s.trace ++ ledOffEvents hw s._canControlViaI2C) = Except.ok H ∧
          image = Image.mono W H false)) ∧
    (precedes (fun e => e.isAttach || e.isDraw) (fun e => e.isI2CWrite || e.isSettingsRead)
        (issued (ShowWhite hw w) s) = true ∧
      precedes Event.isAttach Event.isDraw (issued (ShowWhite hw w) s) = true ∧
      ((∃ e ∈ issued (ShowWhite hw w) s, e.isI2CWrite = true) →
        Event.fbDraw ∈ issued (ShowWhite hw w) s) ∧
      (∀ image, Event.fbAttach image ∈ issued (ShowWhite hw w) s →
        ∃ W H,
          widthAnswer w s.trace = Except.ok W ∧
          heightAnswer w s.trace = Except.ok H ∧
          image = Image.mono W H true)) ∧
    ((ShowBlack hw w s).1 = Except.ok () →
      ∃ W H,
        issued (ShowBlack hw w) s =
          ledOffEvents hw s._canControlViaI2C ++
            geometryEvents (w.heightFirst (s.trace ++ ledOffEvents hw s._canControlViaI2C)) ++
            [Event.fbAttach (Image.mono W H false), Event.fbDraw]) ∧
    ((ShowWhite hw w s).1 = Except.ok () →
      ∃ W H,
        issued (ShowWhite hw w) s =
          geometryEvents (w.heightFirst s.trace) ++
            [Event.fbAttach (Image.mono W H true), Event.fbDraw] ++
            ledOnEvents hw s._canControlViaI2C
              (w.getInt
                (s.trace ++ geometryEvents (w.heightFirst s.trace) ++
                  [Event.fbAttach (Image.mono W H true), Event.fbDraw])
                SettingKey.PROJECTOR_LED_CURRENT)) := by
  refine ⟨ShowBlack_order hw w s, ShowWhite_order hw w s, fun h => ?_, fun h => ?_⟩
  · obtain ⟨W, H, -, -, hi⟩ := ShowBlack_issued_of_ok hw w s h
    exact ⟨W, H, hi⟩
  · obtain ⟨W, H, -, -, hi⟩ := ShowWhite_of_ok hw w s h
    exact ⟨W, H, hi⟩

/-- Witness for C4: the calls of `ShowBlack` and of `ShowWhite` on a calm
1280 x 800 display with the bus available and configured current 150, with
`Height()` evaluated first and with `Width()` evaluated first. -/
theorem ShowBlack_ShowWhite_call_order_witness :
    (ShowBlack sampleHw (calmWorld 0 150) busSys).1 = Except.ok () ∧
      (ShowWhite sampleHw (calmWorld 0 150) busSys).1 = Except.ok () ∧
      (∃ W H,
        issued (ShowBlack sampleHw (calmWorld 0 150)) busSys =
          ledOffEvents sampleHw busSys._canControlViaI2C ++
            geometryEvents ((calmWorld 0 150).heightFirst
              (busSys.trace ++ ledOffEvents sampleHw busSys._canControlViaI2C)) ++
            [Event.fbAttach (Image.mono W H false), Event.fbDraw]) ∧
      issued (ShowBlack sampleHw (calmWorld 0 150)) busSys =
        [Event.i2cWrite sampleHw.PROJECTOR_LED_ENABLE_REG [sampleHw.PROJECTOR_DISABLE_LEDS],
         Event.fbHeight, Event.fbWidth, Event.fbAttach (Image.mono 1280 800 false),
         Event.fbDraw] ∧
      issued (ShowWhite sampleHw (calmWorld 0 150)) busSys =
        [Event.fbHeight, Event.fbWidth, Event.fbAttach (Image.mono 1280 800 true),
         Event.fbDraw, Event.settingsGetInt SettingKey.PROJECTOR_LED_CURRENT,
         Event.i2cWrite sampleHw.PROJECTOR_LED_PWM_POLARITY_REG
           [sampleHw.PROJECTOR_PWM_POLARITY_NORMAL],
         Event.i2cWrite sampleHw.PROJECTOR_LED_CURRENT_REG [150, 150, 150],
         Event.i2cWrite sampleHw.PROJECTOR_LED_ENABLE_REG [sampleHw.PROJECTOR_ENABLE_LEDS]] ∧
      issued (ShowWhite sampleHw (widthFirstWorld 0 150)) busSys =
        [Event.fbWidth, Event.fbHeight, Event.fbAttach (Image.mono 1280 800 true),
         Event.fbDraw, Event.settingsGetInt SettingKey.PROJECTOR_LED_CURRENT,
         Event.i2cWrite sampleHw.PROJECTOR_LED_PWM_POLARITY_REG
           [sampleHw.PROJECTOR_PWM_POLARITY_NORMAL],
         Event.i2cWrite sampleHw.PROJECTOR_LED_CURRENT_REG [150, 150, 150],
         Event.i2cWrite sampleHw.PROJECTOR_LED_ENABLE_REG [sampleHw.PROJECTOR_ENABLE_LEDS]] ∧
      issued (ShowBlack sampleHw (geometryFailsWorld 0 150)) busSys =
        [Event.i2cWrite sampleHw.PROJECTOR_LED_ENABLE_REG [sampleHw.PROJECTOR_DISABLE_LEDS],
         Event.fbHeight] :=
  ⟨rfl, rfl,
    (ShowBlack_ShowWhite_call_order sampleHw (calmWorld 0 150) busSys).2.2.1 rfl,
    by decide, by decide, by decide, by decide⟩

/-- C6: the destructor always returns normally, whatever the collaborators
do: it runs `ShowBlack` (LED off first, then the black image attached and
drawn), and when `ShowBlack` throws, the exception is caught, its message is
written to `std::cerr`, and nothing is rethrown.  The flag is unchanged. -/
theorem destroyProjector_never_throws (hw : Hardware) (w : World) (s : Sys) :
    (destroyProjector hw w s).1 = Except.ok () ∧
      (destroyProjector hw w s).2._canControlViaI2C = s._canControlViaI2C ∧
      (destroyProjector hw w s).2.trace =
        (ShowBlack hw w s).2.trace ++
          (match (ShowBlack hw w s).1 with
            | Except.ok _ => []
            | Except.error e => [Event.cerr e.what]) ∧
      (ShowBlack hw w s).2.trace = s.trace ++ issued (ShowBlack hw w) s ∧
      precedes Event.isI2CWrite (fun e => e.isAttach || e.isDraw)
        (issued (ShowBlack hw w) s) = true := by
  obtain ⟨hcan, htr, -⟩ := ShowBlack_facts hw w s
  refine ⟨?_, ?_, ?_, htr, (ShowBlack_order hw w s).1⟩ <;>
    (unfold destroyProjector Exec.tryCatch
     rcases hsb : ShowBlack hw w s with ⟨r, s2⟩
     rw [hsb] at hcan
     cases r <;> simp_all [Cerr, call])

/-- Witness for C6: destruction when `Draw` throws. -/
theorem destroyProjector_never_throws_witness :
    (ShowBlack sampleHw (drawFailsWorld 0 150) busSys).1 = Except.error { what := "draw" } ∧
      (destroyProjector sampleHw (drawFailsWorld 0 150) busSys).1 = Except.ok () ∧
      issued (destroyProjector sampleHw (drawFailsWorld 0 150)) busSys =
        [Event.i2cWrite sampleHw.PROJECTOR_LED_ENABLE_REG [sampleHw.PROJECTOR_DISABLE_LEDS],
         Event.fbHeight, Event.fbWidth, Event.fbAttach (Image.mono 1280 800 false),
         Event.fbDraw, Event.cerr "draw"] :=
  ⟨rfl, (destroyProjector_never_throws sampleHw (drawFailsWorld 0 150) busSys).1, by decide⟩

/-! ## Error propagation -/

theorem error_means_no_LED_calls (hw : Hardware) (w : World) (s : Sys) (op : Op)
    (hop : op = Op.ShowCurrentImage ∨ op = Op.ShowWhite ∨ ∃ path, op = Op.ShowImageFromFile path)
    (e : StdException) (herr : (op.run hw w s).1 = Except.error e) :
    (issued (op.run hw w) s).filter (fun x => x.isI2CWrite || x.isSettingsRead) = [] := by
  cases s with
  | mk can t =>
    rcases hop with h | h | ⟨path, h⟩ <;> subst h <;>
      simp only [Op.run, issued, ShowCurrentImage, ShowWhite, ShowImageFromFile, TurnLEDOn_eq,
        Geometry_bind, Attach, Draw, ImageFromPath, bind_call, call] at herr ⊢ <;>
      (repeat' split) <;>
      simp_all [Event.isI2CWrite, Event.isSettingsRead]

/-- C9: image and display errors reach the caller unmodified and stop the
operation at the failing step.  If decoding fails in `ShowImageFromFile`, the
operation returns that error after the decoding call alone: no `Attach`, no
`Draw`, no bus write.  If `Draw` fails in `ShowImageFromFile`, `ShowWhite` or
`ShowCurrentImage`, the operation returns that error and `Draw` is its last
call.  Whenever one of the three returns an error, it has issued no bus write
and has not read the configured current.  In `ShowWhite`, `Width()` and
`Height()` are called in either order, and when the one called first throws,
that error is returned and it is the only call. -/
theorem image_and_display_errors_propagate (hw : Hardware) (w : World) (s : Sys)
    (e : StdException) :
    (∀ path, w.imageRead s.trace path = Except.error e →
        ShowImageFromFile hw w path s =
          (Except.error e, { s with trace := s.trace ++ [Event.imageRead path] })) ∧
      (∀ path image, w.imageRead s.trace path = Except.ok image →
        w.fbAttach (s.trace ++ [Event.imageRead path]) image = Except.ok () →
        w.fbDraw (s.trace ++ [Event.imageRead path, Event.fbAttach image]) = Except.error e →
        ShowImageFromFile hw w path s =
          (Except.error e,
            { s with trace := s.trace ++
                [Event.imageRead path, Event.fbAttach image, Event.fbDraw] })) ∧
      (∀ W H, widthAnswer w s.trace = Except.ok W →
        heightAnswer w s.trace = Except.ok H →
        w.fbAttach (s.trace ++ geometryEvents (w.heightFirst s.trace)) (Image.mono W H true) =
          Except.ok () →
        w.fbDraw (s.trace ++ geometryEvents (w.heightFirst s.trace) ++
            [Event.fbAttach (Image.mono W H true)]) =
          Except.error e →
        ShowWhite hw w s =
          (Except.error e,
            { s with trace := (s.trace ++ geometryEvents (w.heightFirst s.trace) ++
                [Event.fbAttach (Image.mono W H true), Event.fbDraw]) })) ∧
      (w.fbDraw s.trace = Except.error e →
        ShowCurrentImage hw w s =
          (Except.error e, { s with trace := s.trace ++ [Event.fbDraw] })) ∧
      (∀ op : Op,
        (op = Op.ShowCurrentImage ∨ op = Op.ShowWhite ∨
          ∃ path, op = Op.ShowImageFromFile path) →
        (op.run hw w s).1 = Except.error e →
        (issued (op.run hw w) s).filter (fun x => x.isI2CWrite || x.isSettingsRead) = []) ∧
      (w.heightFirst s.trace = true → w.fbHeight s.trace = Except.error e →
        ShowWhite hw w s =
          (Except.error e, { s with trace := s.trace ++ [Event.fbHeight] })) ∧
      (w.heightFirst s.trace = false → w.fbWidth s.trace = Except.error e →
        ShowWhite hw w s =
          (Except.error e, { s with trace := s.trace ++ [Event.fbWidth] })) := by
  refine ⟨?_, ?_, ?_, ?_, fun op hop herr => error_means_no_LED_calls hw w s op hop e herr,
    ?_, ?_⟩
  · intro path h
    simp [ShowImageFromFile, ImageFromPath, bind_call, h]
  · intro path image h1 h2 h3
    simp [ShowImageFromFile, ImageFromPath, Attach, Draw, bind_call, h1, h2, h3]
  · intro W H h1 h2 h3 h4
    cases hf : w.heightFirst s.trace <;>
      simp only [widthAnswer, heightAnswer, geometryEvents, hf, if_true, Bool.false_eq_true,
        if_false, List.append_assoc, List.cons_append, List.nil_append] at h1 h2 h3 h4 <;>
      simp [ShowWhite, Geometry_bind, Attach, Draw, bind_call, geometryEvents, hf, h1, h2,
        h3, h4]
  · intro h
    simp [ShowCurrentImage, Draw, bind_call, h]
  · intro hf h
    simp [ShowWhite, Geometry_bind, hf, h]
  · intro hf h
    simp [ShowWhite, Geometry_bind, hf, h]

/-- Witness for C9: a decoding failure, a `Draw` failure in `ShowCurrentImage`
and in `ShowWhite`, and a display whose `Width()` and `Height()` both throw,
with `Height()` evaluated first; bus available. -/
theorem image_and_display_errors_propagate_witness :
    ShowImageFromFile sampleHw (decodeFailsWorld 0 150) "slice_1.png" busSys =
        (Except.error { what := "decode" },
          { busSys with trace := busSys.trace ++ [Event.imageRead "slice_1.png"] }) ∧
      ShowCurrentImage sampleHw (drawFailsWorld 0 150) busSys =
        (Except.error { what := "draw" },
          { busSys with trace := busSys.trace ++ [Event.fbDraw] }) ∧
      ShowWhite sampleHw (drawFailsWorld 0 150) busSys =
        (Except.error { what := "draw" },
          { busSys with trace := (busSys.trace ++
              geometryEvents ((drawFailsWorld 0 150).heightFirst busSys.trace) ++
              [Event.fbAttach (Image.mono 1280 800 true), Event.fbDraw]) }) ∧
      ShowWhite sampleHw (geometryFailsWorld 0 150) busSys =
        (Except.error { what := "height" },
          { busSys with trace := busSys.trace ++ [Event.fbHeight] }) :=
  ⟨(image_and_display_errors_propagate sampleHw (decodeFailsWorld 0 150) busSys
      { what := "decode" }).1 "slice_1.png" rfl,
    (image_and_display_errors_propagate sampleHw (drawFailsWorld 0 150) busSys
      { what := "draw" }).2.2.2.1 rfl,
    (image_and_display_errors_propagate sampleHw (drawFailsWorld 0 150) busSys
      { what := "draw" }).2.2.1 1280 800 rfl rfl rfl rfl,
    (image_and_display_errors_propagate sampleHw (geometryFailsWorld 0 150) busSys
      { what := "height" }).2.2.2.2.2.1 rfl rfl⟩

/-! ## LED state at the moment of `Draw` -/

/-- C5 (counterexample): after construction with the bus available (LED
off), two `ShowWhite` calls in a row: the first `Draw` happens with the LED
off, the second while the last write to the LED-enable register is the enable
command of the first call. -/
theorem second_ShowWhite_draws_with_LED_on :
    (Projector sampleHw (calmWorld 0 150) freshSys).2._canControlViaI2C = true ∧
      ledAfter sampleHw false (Projector sampleHw (calmWorld 0 150) freshSys).2.trace = false ∧
      darkDraws sampleHw false
        (issued (runOps sampleHw (calmWorld 0 150) [Op.ShowWhite])
          (Projector sampleHw (calmWorld 0 150) freshSys).2) = true ∧
      darkDraws sampleHw false
        (issued (runOps sampleHw (calmWorld 0 150) [Op.ShowWhite, Op.ShowWhite])
          (Projector sampleHw (calmWorld 0 150) freshSys).2) = false := by
  decide

/-- C5 (amended): with the bus available, for every operation that changes
the displayed image: within the operation the enable command is written only
after its `Draw`; `ShowBlack` writes the disable command before its `Draw`, so
the LED is off at that `Draw` and stays off; for `ShowWhite`,
`ShowImageFromFile` and `ShowCurrentImage` the LED is off at the `Draw` when it
was off as the operation started. -/
theorem LED_off_at_Draw (hw : Hardware) (w : World) (s : Sys) (op : Op) (lit : Bool)
    (hd : hw.Distinct) (hcan : s._canControlViaI2C = true)
    (hop : op.changesImage = true)
    (hoff : op = Op.ShowBlack ∨ ledAfter hw lit s.trace = false) :
    darkDraws hw (ledAfter hw lit s.trace) (issued (op.run hw w) s) = true ∧
      precedes Event.isDraw
        (fun e => decide (e =
          Event.i2cWrite hw.PROJECTOR_LED_ENABLE_REG [hw.PROJECTOR_ENABLE_LEDS]))
        (issued (op.run hw w) s) = true ∧
      (op = Op.ShowBlack →
        ledAfter hw (ledAfter hw lit s.trace) (issued (op.run hw w) s) = false) := by
  obtain ⟨-, h2, h3, -, -, -, h7⟩ := hd
  cases s with
  | mk can t =>
    simp only at hcan
    subst hcan
    cases op with
    | TurnLEDOn => simp [Op.changesImage] at hop
    | TurnLEDOff => simp [Op.changesImage] at hop
    | SetImage image => simp [Op.changesImage] at hop
    | ShowBlack =>
      simp only [Op.run, issued, ShowBlack, TurnLEDOff_bind, Geometry_bind, Attach, Draw,
        bind_call, call]
      (repeat' split) <;>
        simp [darkDraws, ledAfter, ledStep, ledOffEvents, precedes, Event.isDraw, h7,
          Ne.symm h7, List.dropWhile]
    | ShowCurrentImage =>
      simp only [false_or, reduceCtorEq] at hoff
      simp only [Op.run, issued, ShowCurrentImage, TurnLEDOn_eq, Draw, bind_call, call,
        ledOnEvents, if_true, hoff]
      (repeat' split) <;>
        simp [darkDraws, ledAfter, ledStep, precedes, Event.isDraw, h2, h3, List.dropWhile]
    | ShowWhite =>
      simp only [false_or, reduceCtorEq] at hoff
      simp only [Op.run, issued, ShowWhite, TurnLEDOn_eq, Geometry_bind, Attach, Draw,
        bind_call, call, ledOnEvents, if_true, hoff]
      (repeat' split) <;>
        simp [darkDraws, ledAfter, ledStep, precedes, Event.isDraw, h2, h3, List.dropWhile]
    | ShowImageFromFile path =>
      simp only [false_or, reduceCtorEq] at hoff
      simp only [Op.run, issued, ShowImageFromFile, TurnLEDOn_eq, ImageFromPath, Attach, Draw,
        bind_call, call, ledOnEvents, if_true, hoff]
      (repeat' split) <;>
        simp [darkDraws, ledAfter, ledStep, precedes, Event.isDraw, h2, h3, List.dropWhile]

/-- Witness for C5: `ShowWhite` right after construction with the bus available. -/
theorem LED_off_at_Draw_witness :
    sampleHw.Distinct ∧
      (Projector sampleHw (calmWorld 0 150) freshSys).2._canControlViaI2C = true ∧
      ledAfter sampleHw false (Projector sampleHw (calmWorld 0 150) freshSys).2.trace = false ∧
      darkDraws sampleHw
        (ledAfter sampleHw false (Projector sampleHw (calmWorld 0 150) freshSys).2.trace)
        (issued (Op.ShowWhite.run sampleHw (calmWorld 0 150))
          (Projector sampleHw (calmWorld 0 150) freshSys).2) = true :=
  ⟨by decide, rfl, by decide,
    (LED_off_at_Draw sampleHw (calmWorld 0 150)
      (Projector sampleHw (calmWorld 0 150) freshSys).2 Op.ShowWhite false
      (by decide) rfl rfl (Or.inr (by decide))).1⟩

/-! ## Repeated `TurnLEDOn` -/

theorem regWrites_append (reg : Nat) (l1 l2 : List Event) :
    regWrites reg (l1 ++ l2) = regWrites reg l1 ++ regWrites reg l2 := by
  induction l1 with
  | nil => rfl
  | cons e es ih =>
    cases e with
    | i2cWrite r data =>
      by_cases h : r = reg <;> simp [regWrites, h, ih]
    | _ => simpa [regWrites] using ih

theorem busWrites_append (l1 l2 : List Event) :
    busWrites (l1 ++ l2) = busWrites l1 ++ busWrites l2 := by
  induction l1 with
  | nil => rfl
  | cons e es ih => cases e <;> simp [busWrites, ih]

theorem busWrites_flatten_replicate (n : Nat) (l : List Event) :
    busWrites (List.replicate n l).flatten = (List.replicate n (busWrites l)).flatten := by
  induction n with
  | zero => rfl
  | succ n ih => simp [List.replicate_succ, busWrites_append, ih]

theorem getLast_flatten_replicate_succ (n : Nat) (l : List (List Nat)) :
    (List.replicate (n + 1) l).flatten.getLast? = l.getLast? := by
  induction n with
  | zero => simp
  | succ n ih =>
    rw [List.replicate_succ, List.flatten_cons, List.getLast?_append, ih]
    cases l.getLast? <;> rfl

theorem lastWrite_repeat (reg : Nat) (t l : List Event) (n : Nat) :
    lastWrite reg (t ++ (List.replicate (n + 1) l).flatten) = lastWrite reg (t ++ l) := by
  have h : regWrites reg (List.replicate (n + 1) l).flatten =
      (List.replicate (n + 1) (regWrites reg l)).flatten := by
    induction n with
    | zero => simp
    | succ n ih =>
      rw [List.replicate_succ, List.flatten_cons, regWrites_append, ih]
      simp [List.replicate_succ]
  unfold lastWrite
  rw [regWrites_append, regWrites_append, h, List.getLast?_append, List.getLast?_append,
    getLast_flatten_replicate_succ]

theorem repeat_TurnLEDOn_eq (hw : Hardware) (w : World) (C : Int)
    (hC : ∀ t, w.getInt t SettingKey.PROJECTOR_LED_CURRENT = C) (n : Nat) (s : Sys) :
    repeatExec (TurnLEDOn hw w) n s =
      (Except.ok (), { s with trace := s.trace ++
        (List.replicate n (ledOnEvents hw s._canControlViaI2C C)).flatten }) := by
  induction n generalizing s with
  | zero => simp [repeatExec, pure, Exec.pure]
  | succ n ih =>
    have h1 := TurnLEDOn_eq hw w s
    rw [hC] at h1
    simp only [repeatExec]
    rw [bind_of_ok _ _ _ _ _ h1, ih]
    simp [List.replicate_succ]

/-- C8: with the bus available and the configured current fixed at `C`, the
calls of `n` consecutive `TurnLEDOn` calls are the `n`-fold repetition of the
calls of one (so are the bus writes: the current registers are rewritten each
time), every call returns normally, and after `n + 1` calls every register
holds what it holds after one call. -/
theorem TurnLEDOn_repeated (hw : Hardware) (w : World) (s : Sys) (C : Int) (n : Nat)
    (hcan : s._canControlViaI2C = true)
    (hC : ∀ t, w.getInt t SettingKey.PROJECTOR_LED_CURRENT = C) :
    (repeatExec (TurnLEDOn hw w) n s).1 = Except.ok () ∧
      issued (repeatExec (TurnLEDOn hw w) n) s =
        (List.replicate n (issued (TurnLEDOn hw w) s)).flatten ∧
      busWrites (issued (repeatExec (TurnLEDOn hw w) n) s) =
        (List.replicate n (busWrites (issued (TurnLEDOn hw w) s))).flatten ∧
      ((hw.PROJECTOR_LED_CURRENT_REG,
          [toUnsignedChar C, toUnsignedChar C, toUnsignedChar C]) ∈
        busWrites (issued (TurnLEDOn hw w) s) ∨ C ≤ 0) ∧
      ∀ reg, lastWrite reg (repeatExec (TurnLEDOn hw w) (n + 1) s).2.trace =
        lastWrite reg (TurnLEDOn hw w s).2.trace := by
  have hone : issued (TurnLEDOn hw w) s = ledOnEvents hw true C := by
    rw [issued_TurnLEDOn, hcan, hC]
  have hrep : ∀ k, issued (repeatExec (TurnLEDOn hw w) k) s =
      (List.replicate k (ledOnEvents hw true C)).flatten := by
    intro k
    simp [issued, repeat_TurnLEDOn_eq hw w C hC k s, hcan]
  refine ⟨?_, ?_, ?_, ?_, ?_⟩
  · rw [repeat_TurnLEDOn_eq hw w C hC n s]
  · rw [hrep, hone]
  · rw [hrep, hone, busWrites_flatten_replicate]
  · rw [hone, busWrites_ledOnEvents]
    by_cases h : C > 0
    · left; simp [h]
    · right; omega
  · intro reg
    rw [repeat_TurnLEDOn_eq hw w C hC (n + 1) s, TurnLEDOn_eq, hC, hcan]
    exact lastWrite_repeat reg s.trace _ n

/-- Witness for C8: three calls at configured current 150. -/
theorem TurnLEDOn_repeated_witness :
    busSys._canControlViaI2C = true ∧
      (∀ t, (calmWorld 0 150).getInt t SettingKey.PROJECTOR_LED_CURRENT = 150) ∧
      busWrites (issued (repeatExec (TurnLEDOn sampleHw (calmWorld 0 150)) 3) busSys) =
        (List.replicate 3
          (busWrites (issued (TurnLEDOn sampleHw (calmWorld 0 150)) busSys))).flatten :=
  ⟨rfl, fun _ => rfl,
    (TurnLEDOn_repeated sampleHw (calmWorld 0 150) busSys 150 3 rfl (fun _ => rfl)).2.2.1⟩

end Ember
